import Mathlib

/-!
Verification of the statistics routines of
`src/host_guest/Analysis/Scripts/analyze_sampling.py` (SAMPL6 sampling
challenge analysis).

The numeric code is embedded shallowly over `ℚ` (Python floats idealized as
exact rationals).  Calls into external numeric libraries — `scipy.optimize.
curve_fit`, `scipy.stats.mstats.gmean`, `np.sqrt`, `np.exp`, and Python's
float-to-string rendering — are treated as opaque function parameters: the
source script is the authority for how their inputs are assembled and how
their outputs are combined, which is what the embedding captures.  Fallible
operations (indexing `values[-1]` or `values[0]` of a possibly empty array,
`math.log10(0)`, an empty `min(...)`) are embedded with `Option`, `none`
standing for the Python exception.

A pandas mean-trajectory table (the result of `mean_free_energies()`
restricted to one system) is embedded as a record of its columns.
-/

/-- One mean-trajectory table: the columns of the pandas dataframe used by
the analysis code ('$\Delta$G [kcal/mol]', '$\Delta$G CI', 'std', 'bias',
'Simulation percentage', 'N energy evaluations'), as parallel lists. -/
structure MeanData where
  DG : List ℚ
  DG_CI : List ℚ
  std : List ℚ
  bias : List ℚ
  simPercentage : List ℚ
  nEnergyEval : List ℚ
  deriving Repr, DecidableEq

/-- Index of the first nonzero element of a list:
`np.nonzero(values)[0][0]`.  `none` models the `IndexError` raised when
every element is zero. -/
def firstNonzeroIdx : List ℚ → Option ℕ
  | [] => none
  | v :: rest =>
    if v ≠ 0 then some 0 else (firstNonzeroIdx rest).map (fun i => i + 1)

/-- Round half to even on `ℚ`: the rounding mode of Python's builtin
`round` (banker's rounding), returning an integer. -/
def rhe (q : ℚ) : ℤ :=
  if q - ⌊q⌋ < 1/2 then ⌊q⌋
  else if 1/2 < q - ⌊q⌋ then ⌊q⌋ + 1
  else if ⌊q⌋ % 2 = 0 then ⌊q⌋ else ⌊q⌋ + 1

/-- Python `round(q, n)` for a (possibly negative) number of decimal
places `n`: round half to even at the decimal position `10^(-n)`. -/
def pyRound (n : ℤ) (q : ℚ) : ℚ :=
  (rhe (q * 10 ^ n) : ℚ) / 10 ^ n

/-- Fuel-driven helper for `floorLog10` on inputs at least 1: counts how
many times the value can be divided by 10 before dropping below 10. -/
def logUp : ℕ → ℚ → ℕ
  | 0, _ => 0
  | fuel + 1, q => if 10 ≤ q then logUp fuel (q / 10) + 1 else 0

/-- Fuel-driven helper for `floorLog10` on inputs below 1: counts how many
times the value must be multiplied by 10 to reach 1. -/
def logDown : ℕ → ℚ → ℕ
  | 0, _ => 0
  | fuel + 1, q => if q < 1 then logDown fuel (q * 10) + 1 else 0

/-- Executable `floor(log10 q)` for positive rationals: the unique `k`
with `10^k ≤ q < 10^(k+1)` (`floorLog10_spec`).  The fuel bounds
`q.num.natAbs` and `q.den` always suffice. -/
def floorLog10 (q : ℚ) : ℤ :=
  if 1 ≤ q then (logUp q.num.natAbs q : ℤ) else -(logDown q.den q : ℤ)

/-- Source: `reduce_to_first_significant_digit(quantity, uncertainty)`.
Computes `first_significant_digit = math.floor(math.log10(abs(uncertainty)))`
and rounds both arguments to `-first_significant_digit` decimal places.
`none` models the `ValueError` raised by `math.log10` when the uncertainty
is zero.  (`floorLog10 |u|` is exactly `floor(log10(|u|))` for `u ≠ 0`:
see `floorLog10_spec`.) -/
def reduce_to_first_significant_digit (quantity uncertainty : ℚ) :
    Option (ℚ × ℚ) :=
  if uncertainty = 0 then none
  else
    let fsd := floorLog10 |uncertainty|
    some (pyRound (-fsd) quantity, pyRound (-fsd) uncertainty)

/-- Source: the constant `SYSTEM_IDS` (lines 38-42). -/
def SYSTEM_IDS : List String := [
  "CB8-G3-0", "CB8-G3-1", "CB8-G3-2", "CB8-G3-3", "CB8-G3-4",
  "OA-G3-0", "OA-G3-1", "OA-G3-2", "OA-G3-3", "OA-G3-4",
  "OA-G6-0", "OA-G6-1", "OA-G6-2", "OA-G6-3", "OA-G6-4"
]

/-- Source: `plot_yank_system_bias`, line 763:
`system_ids = [system_name + '-' + str(i) for i in range(5)]`. -/
def plot_yank_system_bias_system_ids (system_name : String) : List String :=
  (List.range 5).map (fun i => system_name ++ "-" ++ toString i)

/-- The model fitted by `fit_efficiency`:
`model(x, log_efficiency) = np.exp(log_efficiency) / x`, with `np.exp`
passed in as the opaque `pexp`. -/
def model (pexp : ℚ → ℚ) (x log_efficiency : ℚ) : ℚ :=
  pexp log_efficiency / x

/-- Index of the first pair with minimal second component.  This is the
value of `fits.index(min(fits, key=lambda x: x[1]))` in `fit_efficiency`:
Python's `min` with a key returns the first element attaining the minimal
key, and `.index` then returns that element's (first) position. -/
def idxMinSnd : List (ℚ × ℚ) → ℕ
  | [] => 0
  | p :: ps =>
    if ps = [] then 0
    else
      let j := idxMinSnd ps
      if (ps.getD j (0, 0)).2 < p.2 then j + 1 else 0

/-- Source: `fit_efficiency(mean_data, find_best_fit=True)` (lines 88-124).
`pexp` stands for `np.exp` and `curveFit` for
`scipy.optimize.curve_fit(model, cost_fit, vars_fit, p0=[0.0])`, returning
the pair (fitted parameter `popt[0]`, reported fitting error `pcov`).
The data fitted are the squared 'std' column against the 'Simulation
percentage' column.  `none` models the `ValueError` of `min([])` (when
`find_best_fit` is true and the table has at most one row) and the
`IndexError` of `values[-1]` on an empty 'N energy evaluations' column. -/
def fit_efficiency (pexp : ℚ → ℚ)
    (curveFit : (ℚ → ℚ → ℚ) → List ℚ → List ℚ → ℚ × ℚ)
    (mean_data : MeanData) (find_best_fit : Bool) : Option (ℚ × ℕ) :=
  let vars := mean_data.std.map (fun s => s ^ 2)
  let cost := mean_data.simPercentage
  let max_discarded := if find_best_fit then cost.length / 2 else 1
  let fits := (List.range max_discarded).map (fun n =>
    let f := curveFit (model pexp) (cost.drop n) (vars.drop n)
    (pexp f.1, f.2))
  if fits = [] then none
  else
    let n_discarded := idxMinSnd fits
    match mean_data.nEnergyEval.getLast? with
    | none => none
    | some lastEval =>
      some ((fits.getD n_discarded (0, 0)).1 / 100 * lastEval, n_discarded)

/-- The fitted parameter `np.exp(fit[0])` of the fit discarding the first
`n` data points, as computed inside `fit_efficiency`. -/
def fitEff (pexp : ℚ → ℚ)
    (curveFit : (ℚ → ℚ → ℚ) → List ℚ → List ℚ → ℚ × ℚ)
    (mean_data : MeanData) (n : ℕ) : ℚ :=
  pexp (curveFit (model pexp) (mean_data.simPercentage.drop n)
    ((mean_data.std.map (fun s => s ^ 2)).drop n)).1

/-- The reported fitting error `fit[1]` of the fit discarding the first
`n` data points, as computed inside `fit_efficiency`. -/
def fitErr (pexp : ℚ → ℚ)
    (curveFit : (ℚ → ℚ → ℚ) → List ℚ → List ℚ → ℚ × ℚ)
    (mean_data : MeanData) (n : ℕ) : ℚ :=
  (curveFit (model pexp) (mean_data.simPercentage.drop n)
    ((mean_data.std.map (fun s => s ^ 2)).drop n)).2

/-- Concrete mean-data table used by witnesses. -/
def wMeanData : MeanData :=
  { DG := [0, 2], DG_CI := [1, 1], std := [1, 2], bias := [1, 1],
    simPercentage := [50, 100], nEnergyEval := [10, 20] }

/-- Concrete stand-in for `np.exp` used by witnesses. -/
def wExp (q : ℚ) : ℚ := q + 1

/-- Concrete stand-in for `scipy.optimize.curve_fit` used by witnesses:
returns (number of data points, head of the cost data). -/
def wFit (_f : ℚ → ℚ → ℚ) (c _v : List ℚ) : ℚ × ℚ :=
  ((c.length : ℚ), c.headD 0)

/-- Embedding of `np.isclose(x, 0.0)` with numpy's default tolerances
`rtol=1e-5`, `atol=1e-8`: `|x - 0| <= atol + rtol*|0| = 1e-8`. -/
def isclose0 (a : ℚ) : Bool := |a| ≤ 1 / 100000000

/-- Source: `compute_geometric_mean_relative_efficiencies(mean_data,
reference_mean_data)` (lines 849-878).  `sqrtF` stands for `np.sqrt` and
`gmeanF` for `sp.stats.mstats.gmean`; the source is the authority for the
lists they are applied to.  `none` models the `IndexError` raised by
`np.nonzero(...)[0][0]` when the submission's free-energy column is all
zeros.  Elementwise numpy arithmetic on equal-length arrays is embedded
with `List.zipWith`. -/
def compute_geometric_mean_relative_efficiencies (sqrtF : ℚ → ℚ)
    (gmeanF : List ℚ → ℚ) (mean_data reference_mean_data : MeanData) :
    Option (ℚ × ℚ × ℚ) :=
  match firstNonzeroIdx mean_data.DG with
  | none => none
  | some first_nonzero_idx =>
    let var := (mean_data.std.drop first_nonzero_idx).map (fun s => s ^ 2)
    let reference_var :=
      (reference_mean_data.std.drop first_nonzero_idx).map (fun s => s ^ 2)
    let bias := mean_data.bias.drop first_nonzero_idx
    let reference_bias := reference_mean_data.bias.drop first_nonzero_idx
    let var_efficiencies := List.zipWith (fun r v => r / v) reference_var var
    let msd_efficiencies := List.zipWith (fun r v => r / v)
      (List.zipWith (fun rv rb => rv + rb ^ 2) reference_var reference_bias)
      (List.zipWith (fun v b => v + b ^ 2) var bias)
    let biasPairs := (bias.zip reference_bias).filter
      (fun p => !(isclose0 p.1))
    let biasPairs2 := biasPairs.filter (fun p => !(isclose0 p.2))
    let abs_bias_efficiencies := biasPairs2.map (fun p => |p.2| / |p.1|)
    some (sqrtF (gmeanF var_efficiencies), gmeanF abs_bias_efficiencies,
      sqrtF (gmeanF msd_efficiencies))

/-- Concrete stand-in for `np.sqrt` used by witnesses. -/
def wSqrt (q : ℚ) : ℚ := q + 2

/-- Concrete stand-in for `sp.stats.mstats.gmean` used by witnesses. -/
def wGmean (l : List ℚ) : ℚ := l.headD 3

/-- Concrete submission mean-data table used by witnesses. -/
def w2d : MeanData :=
  { DG := [0, 3], DG_CI := [1, 1], std := [1, 2], bias := [1, 2],
    simPercentage := [1, 2], nEnergyEval := [1, 2] }

/-- Concrete reference mean-data table used by witnesses. -/
def w2ref : MeanData :=
  { DG := [1, 1], DG_CI := [1, 1], std := [2, 1], bias := [1, 1],
    simPercentage := [1, 2], nEnergyEval := [1, 2] }

/-- Embedding of `copy.deepcopy` on a mean-data table: a fresh object with
the same value.  In this state-passing embedding the distinction between
the fresh copy and the original is made explicit at the use site: in-place
column updates are applied to whichever table object the code names. -/
def deepcopy (m : MeanData) : MeanData := m

/-- Source: `compute_all_mean_relative_efficiencies(mean_data,
reference_mean_data)` (lines 881-888).  Python mutates objects in place,
so the embedding threads object state explicitly: the first component is
the function's return value (the uncorrected and the bias-corrected
relative-efficiency triples) and the second component is the pair of
caller-visible final states of the two argument tables.  The code rebinds
`reference_mean_data` to `copy.deepcopy(reference_mean_data)` before the
in-place `reference_mean_data['bias'] -= reference_mean_data['bias'].
values[-1]`, so the subtraction hits the fresh copy (`refCopy`), not the
caller's object.  `getLastD 0` embeds `values[-1]`; the theorems about
this function assume a nonempty reference 'bias' column, where the Python
code would otherwise raise. -/
def compute_all_mean_relative_efficiencies (sqrtF : ℚ → ℚ)
    (gmeanF : List ℚ → ℚ) (mean_data reference_mean_data : MeanData) :
    (Option (ℚ × ℚ × ℚ) × Option (ℚ × ℚ × ℚ)) × MeanData × MeanData :=
  let relative_efficiencies :=
    compute_geometric_mean_relative_efficiencies sqrtF gmeanF
      mean_data reference_mean_data
  let refCopy := deepcopy reference_mean_data
  let refCopy :=
    { refCopy with
      bias := refCopy.bias.map (fun b => b - refCopy.bias.getLastD 0) }
  let corrected_relative_efficiencies :=
    compute_geometric_mean_relative_efficiencies sqrtF gmeanF
      mean_data refCopy
  ((relative_efficiencies, corrected_relative_efficiencies),
    (mean_data, reference_mean_data))

/-- Column selection `mean_data[x]` for the x-axis column names used by the
plotting helpers. -/
def getColumn (m : MeanData) (x : String) : List ℚ :=
  if x = "N energy evaluations" then m.nEnergyEval
  else if x = "Simulation percentage" then m.simPercentage
  else []

/-- Python slice `l[::stride]` for `stride >= 1`: the elements at indices
divisible by `stride`. -/
def everyNth (stride : ℕ) (l : List ℚ) : List ℚ :=
  (l.enum.filter (fun p => p.1 % stride = 0)).map (fun p => p.2)

/-- Source: the data-selection part of `plot_mean_free_energy` (lines
168-198): the default `start` is the index of the first nonzero free
energy (`none` models the `IndexError` of `np.nonzero(...)[0][0]` when
all estimates are zero), and the plotted series are
`mean_data[x].values[start::stride] / scale`,
`mean_data[DG_KEY].values[start::stride]` and the sliced
'$\Delta$G CI' column, with `scale = 1e6` only when x is
'N energy evaluations' and `scale_n_energy_evaluations` is set.  The
actual axis-rendering calls are opaque. -/
def plot_mean_free_energy_series (mean_data : MeanData) (x : String)
    (start : Option ℕ) (stride : ℕ) (scale_n_energy_evaluations : Bool) :
    Option (List ℚ × List ℚ × List ℚ) :=
  let start? := match start with
    | some s => some s
    | none => firstNonzeroIdx mean_data.DG
  match start? with
  | none => none
  | some s =>
    let scale : ℚ :=
      if x = "N energy evaluations" ∧ scale_n_energy_evaluations then 1000000
      else 1
    some ((everyNth stride ((getColumn mean_data x).drop s)).map
            (fun v => v / scale),
          everyNth stride (mean_data.DG.drop s),
          everyNth stride (mean_data.DG_CI.drop s))

/-- Source: the data-selection part of `plot_mean_data` (lines 201-226):
`first_nonzero_idx = np.nonzero(mean_data[DG_KEY].values)[0][0]` (`none`
models its `IndexError`), the mean free-energy series via
`plot_mean_free_energy` with `start=first_nonzero_idx`, and the std and
bias series `(mean_data[x].values[first_nonzero_idx:] / scale,
mean_data['std'|'bias'].values[first_nonzero_idx:])`. -/
def plot_mean_data_series (mean_data : MeanData) (x : String) :
    Option ((List ℚ × List ℚ × List ℚ) × (List ℚ × List ℚ) × (List ℚ × List ℚ)) :=
  match firstNonzeroIdx mean_data.DG with
  | none => none
  | some first_nonzero_idx =>
    let scale : ℚ := if x = "N energy evaluations" then 1000000 else 1
    match plot_mean_free_energy_series mean_data x (some first_nonzero_idx) 1 true with
    | none => none
    | some fe =>
      some (fe,
        (((getColumn mean_data x).drop first_nonzero_idx).map (fun v => v / scale),
          mean_data.std.drop first_nonzero_idx),
        (((getColumn mean_data x).drop first_nonzero_idx).map (fun v => v / scale),
          mean_data.bias.drop first_nonzero_idx))

/-- All-zero mean-data table used by the C9 witness. -/
def wZeroData : MeanData :=
  { DG := [0, 0], DG_CI := [1, 1], std := [1, 2], bias := [1, 2],
    simPercentage := [1, 2], nEnergyEval := [1, 2] }

/-- One row of `submission.data`: the per-replicate table columns used by
`export_submissions` ('System ID', DG_KEY, DDG_KEY, 'CPU time [s]',
'N energy evaluations'). -/
structure ReplicateRow where
  systemId : String
  dg : ℚ
  ddg : ℚ
  cpu : ℚ
  neval : ℚ
  deriving Repr, DecidableEq

/-- One row of `submission.mean_free_energies()`: the columns used by
`export_submissions` ('System name', DG_KEY, '$\Delta$G CI',
'N energy evaluations'). -/
structure MeanRow where
  systemName : String
  dg : ℚ
  dgCI : ℚ
  neval : ℚ
  deriving Repr, DecidableEq

/-- A submission as seen by `export_submissions`: its receipt id, its
per-replicate data table and its mean-trajectory table. -/
structure ExpSubmission where
  receipt_id : String
  data : List ReplicateRow
  mean_free_energies : List MeanRow
  deriving Repr, DecidableEq

/-- Helper for `uniq`: distinct values in order of first occurrence,
skipping the ones already seen. -/
def uniqAux (seen : List String) : List String → List String
  | [] => []
  | a :: rest =>
    if a ∈ seen then uniqAux seen rest else a :: uniqAux (a :: seen) rest

/-- Embedding of pandas `.unique()` on a string column: the distinct
values in order of first occurrence. -/
def uniq (l : List String) : List String := uniqAux [] l

/-- Lexicographic comparison of char lists by code point: the order
Python uses to compare strings. -/
def strLtData : List Char → List Char → Bool
  | [], [] => false
  | [], _ :: _ => true
  | _ :: _, [] => false
  | c :: cs, d :: ds =>
    if c.toNat < d.toNat then true
    else if d.toNat < c.toNat then false
    else strLtData cs ds

/-- Python's `<` on strings: lexicographic by code point. -/
def strLt (a b : String) : Bool := strLtData a.data b.data

/-- Insert a string into a sorted list (ascending). -/
def insertSorted (s : String) : List String → List String
  | [] => [s]
  | a :: rest => if strLt s a then s :: a :: rest else a :: insertSorted s rest

/-- Embedding of Python `sorted` on a list of strings. -/
def sortStrings : List String → List String
  | [] => []
  | a :: rest => insertSorted a (sortStrings rest)

/-- Source: `sorted(submission.data['System ID'].unique())` (line 133). -/
def sortedUniqueIds (rows : List ReplicateRow) : List String :=
  sortStrings (uniq (rows.map (fun r => r.systemId)))

/-- Source: the per-replicate `OrderedDict` built for one system id
(lines 134-140). -/
def replicateEntry (rows : List ReplicateRow) (system_id : String) :
    List (String × List ℚ) :=
  let system_id_data := rows.filter (fun r => r.systemId == system_id)
  [("DG", system_id_data.map (fun r => r.dg)),
   ("dDG", system_id_data.map (fun r => r.ddg)),
   ("cpu_times", system_id_data.map (fun r => r.cpu)),
   ("n_energy_evaluations", system_id_data.map (fun r => r.neval))]

/-- Source: the mean-trajectory `OrderedDict` built for one system name
(lines 144-157).  `refFE` is `reference_free_energies.loc[system_name,
'$\Delta$G [kcal/mol]']`, the reference final free energy of the system;
`reference_difference` is the elementwise difference
`free_energies - refFE system_name`. -/
def meanEntry (mfe : List MeanRow) (refFE : String → ℚ) (system_name : String) :
    List (String × List ℚ) :=
  let system_name_data := mfe.filter (fun r => r.systemName == system_name)
  [("DG", system_name_data.map (fun r => r.dg)),
   ("DG_CI", system_name_data.map (fun r => r.dgCI)),
   ("reference_difference",
     system_name_data.map (fun r => r.dg - refFE system_name)),
   ("n_energy_evaluations", system_name_data.map (fun r => r.neval))]

/-- The `exported_data` dictionary built by `export_submissions` for one
submission (lines 130-157), as an assignment list: per-replicate entries
keyed by system id, then mean-trajectory entries keyed by
`system_name + '-mean'`.  Python dict semantics (the last assignment to a
key wins) are recovered by `dlookup`. -/
def exported_data (s : ExpSubmission) (refFE : String → ℚ) :
    List (String × List (String × List ℚ)) :=
  (sortedUniqueIds s.data).map (fun sid => (sid, replicateEntry s.data sid))
  ++ (uniq (s.mean_free_energies.map (fun r => r.systemName))).map
      (fun name => (name ++ "-mean", meanEntry s.mean_free_energies refFE name))

/-- Source: `export_submissions(submissions, reference_free_energies)`
(lines 127-161): one exported dictionary per submission, written out
under the submission's receipt id (`export_dictionary` and the file paths
are opaque I/O). -/
def export_submissions (subs : List ExpSubmission) (refFE : String → ℚ) :
    List (String × List (String × List (String × List ℚ))) :=
  subs.map (fun s => (s.receipt_id, exported_data s refFE))

/-- Value of a key in an assignment list under Python dict semantics: the
last assignment wins. -/
def dlookup {α : Type} (l : List (String × α)) (k : String) : Option α :=
  ((l.filter (fun p => p.1 == k)).getLast?).map (fun p => p.2)

/-- Concrete submission used by the C7 witness. -/
def wExpSub : ExpSubmission :=
  { receipt_id := "R1",
    data := [⟨"OA-G3-1", 1, 2, 3, 4⟩, ⟨"OA-G3-0", 5, 6, 7, 8⟩,
             ⟨"OA-G3-1", 9, 10, 11, 12⟩],
    mean_free_energies := [⟨"OA-G3", 1, 2, 3⟩, ⟨"OA-G3", 4, 5, 6⟩] }

/-- Concrete reference final free energies used by the C7 witness. -/
def wRefFE : String → ℚ := fun _ => 7

/-- Whether `pat` is a prefix of `hay` (on char lists). -/
def isPrefixChars : List Char → List Char → Bool
  | [], _ => true
  | _ :: _, [] => false
  | p :: ps, h :: hs => p == h && isPrefixChars ps hs

/-- Whether `pat` occurs as a contiguous substring of `hay`. -/
def containsSubChars (pat : List Char) : List Char → Bool
  | [] => isPrefixChars pat []
  | h :: hs => isPrefixChars pat (h :: hs) || containsSubChars pat hs

/-- Python's `pat in s` on strings: substring containment. -/
def strContains (s pat : String) : Bool := containsSubChars pat.data s.data

/-- A submission as seen by `print_relative_efficiency_table`: its
internal name, its paper name, and its mean-trajectory table restricted
to a given system name (the pandas row filter
`mean_free_energies[mean_free_energies['System name'] == system_name]`
embedded as a function of the system name). -/
structure Submission where
  name : String
  paper_name : String
  mean_free_energies : String → MeanData

/-- The reference-calculation analysis object (the external
`pkganalysis.sampling.YankSamplingAnalysis`, out of scope of this
repository): its two query methods used by the table code, both with
`mean_trajectory=True`.  The first truncates the reference mean
trajectory at a given number of energy evaluations; the second returns
it up to a given HREX iteration. -/
structure YankAnalysis where
  get_free_energies_from_energy_evaluations : ℚ → String → MeanData
  get_free_energies_from_iteration : ℕ → String → MeanData

/-- Source: the constant `YANK_METHOD_PAPER_NAME` (line 27). -/
def YANK_METHOD_PAPER_NAME : String := "OpenMM/HREX"

/-- Source: `system_names` in `print_relative_efficiency_table`
(line 896). -/
def system_names : List String := ["CB8-G3", "OA-G3", "OA-G6"]

/-- Source: `statistic_names` (line 897). -/
def statistic_names : List String :=
  ["$e_\x7b\\text\x7bstd\x7d\x7d$", "$e_\x7b|\\text\x7bbias\x7d|\x7d$",
   "$e_\x7b\\text\x7bRMSD\x7d\x7d$"]

/-- Source: `column_names` (line 898): the free-energy and cost columns
followed by the three statistic columns. -/
def column_names : List String :=
  ["\\makecell\x7b$\\Delta$ G \\\\ $[$kcal/mol$]$\x7d",
   "\\makecell\x7bn eval \\\\ $[$M$]$\x7d"] ++ statistic_names

/-- Source: the special-case test of lines 912-913: GROMACS/EE (internal
name 'Expanded-ensemble/MBAR') did not converge on CB8-G3, and
GROMACS/CT-NS-long ran only on CB8-G3; those (submission, system) pairs
get empty/NaN table entries. -/
def isSpecialCase (s : Submission) (system_name : String) : Bool :=
  (s.name == "Expanded-ensemble/MBAR" && system_name == "CB8-G3")
  || (s.paper_name == "GROMACS/CT-NS-long" && system_name != "CB8-G3")

/-- Source: line 947, `'{:.2f}' if e < 0.09 else '{:.1f}'`: the number of
printed decimals for one efficiency value. -/
def fmtPrec (e : ℚ) : ℕ := if e < 9 / 100 then 2 else 1

/-- Source: lines 944-956: the table entry for one statistic column.
`fmtF p e` stands for the opaque float formatting `'{:.pf}'.format(e)`.
Columns whose name does not contain 'std' show the uncorrected value
followed by the bias-corrected value in parentheses; the std column shows
only the uncorrected value. -/
def statCell (fmtF : ℕ → ℚ → String) (statistic_name : String)
    (rel corr : ℚ) : String :=
  if strContains statistic_name "std" then fmtF (fmtPrec rel) rel
  else fmtF (fmtPrec rel) rel ++ " (" ++ fmtF (fmtPrec corr) corr ++ ")"

/-- Source: the loop body of `print_relative_efficiency_table` for one
(submission, system) pair (lines 909-957), producing the five cells
appended to the five columns of that system: the '{dg} $\pm$ {dg_CI}'
free-energy cell (`pyReprF` is Python's opaque float-to-string
rendering, applied after `reduce_to_first_significant_digit`), the
`str(int(round(n/1e6)))` cost cell, and the three statistic cells.  In
the special cases of lines 912-916 all five cells are empty (the
efficiencies are NaN and `dg = n_force_eval = ''`).  `none` models the
exceptions the Python code can raise on degenerate tables (empty
columns, all-zero free energies, zero confidence interval). -/
def submissionCells (sqrtF : ℚ → ℚ) (gmeanF : List ℚ → ℚ)
    (pyReprF : ℚ → String) (fmtF : ℕ → ℚ → String) (yank : YankAnalysis)
    (s : Submission) (system_name : String) : Option (List String) :=
  if isSpecialCase s system_name then some ["", "", "", "", ""]
  else
    let mean_data := s.mean_free_energies system_name
    match mean_data.nEnergyEval.getLast? with
    | none => none
    | some n_energy_evaluations =>
      let reference_mean_data :=
        yank.get_free_energies_from_energy_evaluations
          n_energy_evaluations system_name
      match reference_mean_data.bias.getLast? with
      | none => none
      | some _ =>
        match (compute_all_mean_relative_efficiencies sqrtF gmeanF
            mean_data reference_mean_data).1.1,
          (compute_all_mean_relative_efficiencies sqrtF gmeanF
            mean_data reference_mean_data).1.2 with
        | some rel, some corr =>
          match mean_data.DG.getLast?, mean_data.DG_CI.getLast? with
          | some dg, some dg_CI =>
            match reduce_to_first_significant_digit dg dg_CI with
            | none => none
            | some rc =>
              some [pyReprF rc.1 ++ " $\\pm$ " ++ pyReprF rc.2,
                toString (rhe (n_energy_evaluations / 1000000)),
                statCell fmtF (statistic_names.getD 0 "") rel.1 corr.1,
                statCell fmtF (statistic_names.getD 1 "") rel.2.1 corr.2.1,
                statCell fmtF (statistic_names.getD 2 "") rel.2.2 corr.2.2]
          | _, _ => none
        | _, _ => none

/-- Source: the reference row of `print_relative_efficiency_table`
(lines 959-976): the free-energy and cost cells come from the full YANK
trajectory (`get_free_energies_from_iteration(YANK_N_ITERATIONS, ...)`,
`nIter` standing for the external constant `YANK_N_ITERATIONS`), and all
efficiencies relative to YANK itself are the literal string '1.0'. -/
def referenceCells (pyReprF : ℚ → String) (yank : YankAnalysis)
    (nIter : ℕ) (system_name : String) : Option (List String) :=
  let yank_mean_data := yank.get_free_energies_from_iteration nIter system_name
  match yank_mean_data.DG.getLast?, yank_mean_data.DG_CI.getLast? with
  | some dg, some dg_CI =>
    match reduce_to_first_significant_digit dg dg_CI with
    | none => none
    | some rc =>
      match yank_mean_data.nEnergyEval.getLast? with
      | none => none
      | some n_force_eval =>
        some [pyReprF rc.1 ++ " $\\pm$ " ++ pyReprF rc.2,
          toString (rhe (n_force_eval / 1000000)),
          "1.0", "1.0", "1.0"]
  | _, _ => none

/-- `List.mapM` over `Option`, written out structurally: `none` as soon
as one element fails. -/
def omapM {α β : Type} (f : α → Option β) : List α → Option (List β)
  | [] => some []
  | a :: rest =>
    match f a with
    | none => none
    | some b =>
      match omapM f rest with
      | none => none
      | some bs => some (b :: bs)

/-- One column of the efficiency table: the cells appended for each
submission in order (row index `i` selects the system, `j` the column
within the system), followed by the reference-row cell appended last
(lines 959-976). -/
def tableColumn (rows : List (List (List String)))
    (refRow : List (List String)) (i j : ℕ) : List String :=
  rows.map (fun r => (r.getD i []).getD j "") ++ [(refRow.getD i []).getD j ""]

/-- The efficiency table keyed by `itertools.product(system_names,
column_names)` (lines 900-902), each key holding its column of cells. -/
def efficiencyTableCells (rows : List (List (List String)))
    (refRow : List (List String)) : List ((String × String) × List String) :=
  ((system_names.zip (List.range 3)).map (fun si =>
    (column_names.zip (List.range 5)).map (fun cj =>
      ((si.1, cj.1), tableColumn rows refRow si.2 cj.2)))).flatten

/-- The efficiency table built by `print_relative_efficiency_table`: the
method names (index column, lines 906 and 960) and the cells of the
15 (system, column) keys. -/
structure EffTable where
  methods : List String
  cells : List ((String × String) × List String)
  deriving Repr, DecidableEq

/-- Source: `print_relative_efficiency_table(submissions, yank_analysis)`
(lines 891-997): builds the table of free energies, costs and relative
efficiencies, one row per submission plus the reference row appended
last.  The LaTeX rendering (lines 978-997) is opaque output formatting.
`none` models the Python exceptions on degenerate input tables. -/
def print_relative_efficiency_table (sqrtF : ℚ → ℚ) (gmeanF : List ℚ → ℚ)
    (pyReprF : ℚ → String) (fmtF : ℕ → ℚ → String) (nIter : ℕ)
    (submissions : List Submission) (yank : YankAnalysis) : Option EffTable :=
  match omapM (fun s => omapM
      (fun sys => submissionCells sqrtF gmeanF pyReprF fmtF yank s sys)
      system_names) submissions with
  | none => none
  | some rows =>
    match omapM (fun sys => referenceCells pyReprF yank nIter sys)
        system_names with
    | none => none
    | some refRow =>
      some { methods := submissions.map (fun s => s.paper_name)
               ++ [YANK_METHOD_PAPER_NAME],
             cells := efficiencyTableCells rows refRow }

/-- The column of cells under a (system name, column name) key of the
table, empty if the key is absent. -/
def tableLookup (cells : List ((String × String) × List String))
    (system_name column_name : String) : List String :=
  ((cells.find? (fun e => e.1.1 == system_name && e.1.2 == column_name)).map
    (fun e => e.2)).getD []

/-- The statistic cells C4 claims for every (submission, system) pair:
the std, absolute-bias and RMSD efficiencies computed against the YANK
reference mean trajectory truncated at the submission's final number of
energy evaluations, formatted as the table formats them. -/
def claimedStatCells (sqrtF : ℚ → ℚ) (gmeanF : List ℚ → ℚ)
    (fmtF : ℕ → ℚ → String) (yank : YankAnalysis) (s : Submission)
    (system_name : String) : Option (List String) :=
  let mean_data := s.mean_free_energies system_name
  match mean_data.nEnergyEval.getLast? with
  | none => none
  | some n_energy_evaluations =>
    let reference_mean_data :=
      yank.get_free_energies_from_energy_evaluations
        n_energy_evaluations system_name
    match reference_mean_data.bias.getLast? with
    | none => none
    | some _ =>
      match (compute_all_mean_relative_efficiencies sqrtF gmeanF
          mean_data reference_mean_data).1.1,
        (compute_all_mean_relative_efficiencies sqrtF gmeanF
          mean_data reference_mean_data).1.2 with
      | some rel, some corr =>
        some [statCell fmtF (statistic_names.getD 0 "") rel.1 corr.1,
          statCell fmtF (statistic_names.getD 1 "") rel.2.1 corr.2.1,
          statCell fmtF (statistic_names.getD 2 "") rel.2.2 corr.2.2]
      | _, _ => none

/-- C4 as stated: for every submitted method and every one of the three
systems, the table holds the method's three efficiency entries computed
against the YANK reference truncated at the method's final number of
energy evaluations. -/
def relative_efficiency_table_claim (sqrtF : ℚ → ℚ) (gmeanF : List ℚ → ℚ)
    (pyReprF : ℚ → String) (fmtF : ℕ → ℚ → String) (nIter : ℕ)
    (submissions : List Submission) (yank : YankAnalysis) : Prop :=
  ∀ t, print_relative_efficiency_table sqrtF gmeanF pyReprF fmtF nIter
      submissions yank = some t →
    ∀ (k : ℕ) (hk : k < submissions.length), ∀ sys ∈ system_names,
      ∃ cells, claimedStatCells sqrtF gmeanF fmtF yank
          (submissions.get ⟨k, hk⟩) sys = some cells ∧
        ∀ j, j < 3 →
          (tableLookup t.cells sys (statistic_names.getD j "")).getD k ""
            = cells.getD j ""

/-- Concrete submission used by the C4/C5 witnesses and the C4
counterexample: GROMACS/EE, the method the code special-cases on
CB8-G3. -/
def wSub4 : Submission :=
  { name := "Expanded-ensemble/MBAR", paper_name := "GROMACS/EE",
    mean_free_energies := fun _ => w2d }

/-- Concrete reference analysis used by the C4/C5 witnesses. -/
def wYank : YankAnalysis :=
  { get_free_energies_from_energy_evaluations := fun _ _ => w2ref,
    get_free_energies_from_iteration := fun _ _ => w2ref }

/-- Concrete stand-in for Python float rendering used by witnesses. -/
def wRepr : ℚ → String := fun _ => "r"

/-- Concrete stand-in for `'{:.Nf}'.format` used by witnesses. -/
def wFmt : ℕ → ℚ → String := fun _ _ => "f"

/-- The concrete table produced by `print_relative_efficiency_table` on
the witness inputs: for GROMACS/EE the CB8-G3 entries are empty (the
special case), the other systems carry the computed formatted
efficiencies, and the reference row is appended last with '1.0'
entries. -/
def wTable : EffTable :=
  { methods := ["GROMACS/EE", "OpenMM/HREX"],
    cells := [
      (("CB8-G3", "\\makecell\x7b$\\Delta$ G \\\\ $[$kcal/mol$]$\x7d"),
        ["", "r $\\pm$ r"]),
      (("CB8-G3", "\\makecell\x7bn eval \\\\ $[$M$]$\x7d"), ["", "0"]),
      (("CB8-G3", "$e_\x7b\\text\x7bstd\x7d\x7d$"), ["", "1.0"]),
      (("CB8-G3", "$e_\x7b|\\text\x7bbias\x7d|\x7d$"), ["", "1.0"]),
      (("CB8-G3", "$e_\x7b\\text\x7bRMSD\x7d\x7d$"), ["", "1.0"]),
      (("OA-G3", "\\makecell\x7b$\\Delta$ G \\\\ $[$kcal/mol$]$\x7d"),
        ["r $\\pm$ r", "r $\\pm$ r"]),
      (("OA-G3", "\\makecell\x7bn eval \\\\ $[$M$]$\x7d"), ["0", "0"]),
      (("OA-G3", "$e_\x7b\\text\x7bstd\x7d\x7d$"), ["f", "1.0"]),
      (("OA-G3", "$e_\x7b|\\text\x7bbias\x7d|\x7d$"), ["f (f)", "1.0"]),
      (("OA-G3", "$e_\x7b\\text\x7bRMSD\x7d\x7d$"), ["f (f)", "1.0"]),
      (("OA-G6", "\\makecell\x7b$\\Delta$ G \\\\ $[$kcal/mol$]$\x7d"),
        ["r $\\pm$ r", "r $\\pm$ r"]),
      (("OA-G6", "\\makecell\x7bn eval \\\\ $[$M$]$\x7d"), ["0", "0"]),
      (("OA-G6", "$e_\x7b\\text\x7bstd\x7d\x7d$"), ["f", "1.0"]),
      (("OA-G6", "$e_\x7b|\\text\x7bbias\x7d|\x7d$"), ["f (f)", "1.0"]),
      (("OA-G6", "$e_\x7b\\text\x7bRMSD\x7d\x7d$"), ["f (f)", "1.0"])] }

lemma idxMinSnd_lt (l : List (ℚ × ℚ)) (h : l ≠ []) : idxMinSnd l < l.length := by
  induction l with
  | nil => exact absurd rfl h
  | cons p ps ih =>
    by_cases hps : ps = []
    · simp [idxMinSnd, hps]
    · simp only [idxMinSnd, if_neg hps]
      split
      · exact Nat.succ_lt_succ (ih hps)
      · simp

lemma idxMinSnd_min (l : List (ℚ × ℚ)) (m : ℕ) (hm : m < l.length) :
    (l.getD (idxMinSnd l) (0, 0)).2 ≤ (l.getD m (0, 0)).2 := by
  induction l generalizing m with
  | nil => simp at hm
  | cons p ps ih =>
    by_cases hps : ps = []
    · subst hps
      obtain rfl : m = 0 := by simp at hm; omega
      simp [idxMinSnd]
    · simp only [idxMinSnd, if_neg hps]
      split
      · next hlt =>
        match m with
        | 0 => exact le_of_lt hlt
        | m' + 1 =>
          simp only [List.getD_cons_succ]
          exact ih m' (Nat.lt_of_succ_lt_succ hm)
      · next hge =>
        match m with
        | 0 => simp
        | m' + 1 =>
          simp only [List.getD_cons_zero, List.getD_cons_succ]
          exact le_trans (not_lt.1 hge) (ih m' (Nat.lt_of_succ_lt_succ hm))

lemma idxMinSnd_first (l : List (ℚ × ℚ)) (m : ℕ) (hm : m < idxMinSnd l) :
    (l.getD (idxMinSnd l) (0, 0)).2 < (l.getD m (0, 0)).2 := by
  induction l generalizing m with
  | nil => simp [idxMinSnd] at hm
  | cons p ps ih =>
    by_cases hps : ps = []
    · simp [idxMinSnd, hps] at hm
    · simp only [idxMinSnd, if_neg hps] at hm ⊢
      split
      · next hlt =>
        rw [if_pos hlt] at hm
        match m with
        | 0 => exact hlt
        | m' + 1 =>
          simp only [List.getD_cons_succ]
          exact ih m' (Nat.lt_of_succ_lt_succ hm)
      · next hge => rw [if_neg hge] at hm; simp at hm

lemma fit_efficiency_eq (pexp : ℚ → ℚ)
    (curveFit : (ℚ → ℚ → ℚ) → List ℚ → List ℚ → ℚ × ℚ)
    (d : MeanData) (b : Bool) :
    fit_efficiency pexp curveFit d b =
      (let k := if b then d.simPercentage.length / 2 else 1
       let fits := (List.range k).map
         (fun n => (fitEff pexp curveFit d n, fitErr pexp curveFit d n))
       if fits = [] then none
       else match d.nEnergyEval.getLast? with
         | none => none
         | some lastEval =>
           some ((fits.getD (idxMinSnd fits) (0, 0)).1 / 100 * lastEval,
             idxMinSnd fits)) := rfl

lemma getLast?_eq_getLastD (l : List ℚ) (h : l ≠ []) :
    l.getLast? = some (l.getLastD 0) := by
  cases l with
  | nil => exact absurd rfl h
  | cons a l => simp [List.getLastD_eq_getLast?, List.getLast?_cons]

/-- C1: `fit_efficiency` fits the inverse-cost decay model
`var(x) = exp(log_efficiency)/x` (embedded as `model`) to the squared
'std' column against the 'Simulation percentage' column.  With
`find_best_fit = True` it tries the fits discarding
`n = 0, 1, ..., floor(0.5*len(cost)) - 1` initial points and keeps the
(first) fit whose reported fitting error is minimal; with
`find_best_fit = False` it performs only the single fit with no points
discarded.  It returns the chosen fitted efficiency divided by 100 and
multiplied by the last value of the 'N energy evaluations' column,
together with the chosen number of discarded points. -/
theorem fit_efficiency_spec (pexp : ℚ → ℚ)
    (curveFit : (ℚ → ℚ → ℚ) → List ℚ → List ℚ → ℚ × ℚ)
    (d : MeanData) (hcost : 0 < d.simPercentage.length / 2)
    (hne : d.nEnergyEval ≠ []) :
    (∃ n, fit_efficiency pexp curveFit d true
        = some (fitEff pexp curveFit d n / 100 * d.nEnergyEval.getLastD 0, n)
      ∧ n < d.simPercentage.length / 2
      ∧ (∀ m, m < d.simPercentage.length / 2 →
          fitErr pexp curveFit d n ≤ fitErr pexp curveFit d m)
      ∧ (∀ m, m < n → fitErr pexp curveFit d n < fitErr pexp curveFit d m))
    ∧ fit_efficiency pexp curveFit d false
        = some (fitEff pexp curveFit d 0 / 100 * d.nEnergyEval.getLastD 0, 0) := by
  have hlast := getLast?_eq_getLastD d.nEnergyEval hne
  constructor
  · set k := d.simPercentage.length / 2 with hk
    set F : ℕ → ℚ × ℚ :=
      fun n => (fitEff pexp curveFit d n, fitErr pexp curveFit d n) with hF
    have hlen : ((List.range k).map F).length = k := by simp
    have hnil : (List.range k).map F ≠ [] := by
      intro h
      apply_fun List.length at h
      simp at h
      omega
    have hbridge : ∀ m, m < k → ((List.range k).map F).getD m (0, 0) = F m := by
      intro m hm
      rw [List.getD_eq_getElem _ _ (by simpa using hm)]
      simp
    have hidx : idxMinSnd ((List.range k).map F) < k := by
      have := idxMinSnd_lt _ hnil
      rwa [hlen] at this
    refine ⟨idxMinSnd ((List.range k).map F), ?_, hidx, ?_, ?_⟩
    · rw [fit_efficiency_eq]
      simp only [if_true, ← hk, ← hF, if_neg hnil, hlast]
      rw [hbridge _ hidx]
    · intro m hm
      have h1 := idxMinSnd_min ((List.range k).map F) m (by rwa [hlen])
      rwa [hbridge _ hidx, hbridge _ hm] at h1
    · intro m hm
      have h1 := idxMinSnd_first ((List.range k).map F) m hm
      rwa [hbridge _ hidx, hbridge _ (lt_trans hm hidx)] at h1
  · have hr1 : List.range 1 = [0] := rfl
    rw [fit_efficiency_eq]
    simp only [Bool.false_eq_true, if_false, hr1, List.map_cons,
      List.map_nil, hlast]
    simp [idxMinSnd]

/-- Witness for C1 at a concrete input. -/
theorem fit_efficiency_spec_witness :
    (∃ n, fit_efficiency wExp wFit wMeanData true
        = some (fitEff wExp wFit wMeanData n / 100 *
            wMeanData.nEnergyEval.getLastD 0, n)
      ∧ n < wMeanData.simPercentage.length / 2
      ∧ (∀ m, m < wMeanData.simPercentage.length / 2 →
          fitErr wExp wFit wMeanData n ≤ fitErr wExp wFit wMeanData m)
      ∧ (∀ m, m < n → fitErr wExp wFit wMeanData n < fitErr wExp wFit wMeanData m))
    ∧ fit_efficiency wExp wFit wMeanData false
        = some (fitEff wExp wFit wMeanData 0 / 100 *
            wMeanData.nEnergyEval.getLastD 0, 0) :=
  fit_efficiency_spec wExp wFit wMeanData (by decide) (by decide)

lemma str_append_assoc (s t u : String) : s ++ t ++ u = s ++ (t ++ u) := by
  cases s with
  | mk a =>
    cases t with
    | mk b =>
      cases u with
      | mk c =>
        show String.mk (a ++ b ++ c) = String.mk (a ++ (b ++ c))
        rw [List.append_assoc]

/-- C6: every system has exactly five replicates: `SYSTEM_IDS` contains
exactly the fifteen identifiers formed by suffixing each of the three
system names CB8-G3, OA-G3, OA-G6 with '-0' through '-4', and
`plot_yank_system_bias` constructs exactly the five replicate ids
`system_name-0` .. `system_name-4` for the system it analyzes. -/
theorem system_ids_spec :
    SYSTEM_IDS
      = (["CB8-G3", "OA-G3", "OA-G6"].map plot_yank_system_bias_system_ids).flatten
    ∧ ∀ s : String, plot_yank_system_bias_system_ids s
        = [s ++ "-0", s ++ "-1", s ++ "-2", s ++ "-3", s ++ "-4"] := by
  constructor
  · rfl
  · intro s
    show [s ++ "-" ++ "0", s ++ "-" ++ "1", s ++ "-" ++ "2",
      s ++ "-" ++ "3", s ++ "-" ++ "4"] = _
    simp only [str_append_assoc]
    rfl

lemma rhe_dist_le (q : ℚ) : |(rhe q : ℚ) - q| ≤ 1 / 2 := by
  unfold rhe
  have h0 : (0 : ℚ) ≤ q - ⌊q⌋ := by
    have := Int.floor_le q
    linarith
  have h1 : q - ⌊q⌋ < 1 := by
    have := Int.lt_floor_add_one q
    linarith
  split
  · next h => rw [abs_le]; push_cast; constructor <;> linarith
  · next h =>
    split
    · next h' => rw [abs_le]; push_cast; constructor <;> linarith
    · next h' =>
      have heq : q - ⌊q⌋ = 1 / 2 := by
        rcases lt_trichotomy (q - ⌊q⌋) (1 / 2) with hc | hc | hc
        · exact absurd hc h
        · exact hc
        · exact absurd hc h'
      split <;> (rw [abs_le]; push_cast; constructor <;> linarith)

lemma pyRound_spec (n : ℤ) (q : ℚ) :
    (∃ m : ℤ, pyRound n q = (m : ℚ) * 10 ^ (-n)) ∧
    |pyRound n q - q| ≤ 10 ^ (-n) / 2 := by
  have hpow : (0 : ℚ) < 10 ^ n := zpow_pos (by norm_num) n
  have hpow' : (0 : ℚ) < 10 ^ (-n) := zpow_pos (by norm_num) (-n)
  have hinv : (10 : ℚ) ^ (-n) = (10 ^ n)⁻¹ := zpow_neg 10 n
  constructor
  · refine ⟨rhe (q * 10 ^ n), ?_⟩
    rw [pyRound, hinv, div_eq_mul_inv]
  · have hd := rhe_dist_le (q * 10 ^ n)
    rw [pyRound]
    have hq : (rhe (q * 10 ^ n) : ℚ) / 10 ^ n - q
        = ((rhe (q * 10 ^ n) : ℚ) - q * 10 ^ n) / 10 ^ n := by
      field_simp
      ring
    have hcanc : (10 : ℚ) ^ (-n) * 10 ^ n = 1 := by
      rw [hinv]
      exact inv_mul_cancel₀ (ne_of_gt hpow)
    rw [hq, abs_div, abs_of_pos hpow, div_le_iff₀ hpow]
    calc |(rhe (q * 10 ^ n) : ℚ) - q * 10 ^ n| ≤ 1 / 2 := hd
      _ ≤ 10 ^ (-n) / 2 * 10 ^ n := by nlinarith [hcanc]

lemma logUp_spec (fuel : ℕ) (q : ℚ) (h1 : 1 ≤ q) (h2 : q < 10 ^ fuel) :
    (10 : ℚ) ^ logUp fuel q ≤ q ∧ q < 10 ^ (logUp fuel q + 1) := by
  induction fuel generalizing q with
  | zero => rw [pow_zero] at h2; linarith
  | succ fuel ih =>
    by_cases h10 : (10 : ℚ) ≤ q
    · have h1' : (1 : ℚ) ≤ q / 10 := (le_div_iff₀ (by norm_num)).2 (by linarith)
      have h2' : q / 10 < 10 ^ fuel := by
        rw [div_lt_iff₀ (by norm_num)]
        calc q < 10 ^ (fuel + 1) := h2
          _ = 10 ^ fuel * 10 := by rw [pow_succ]
      obtain ⟨ha, hb⟩ := ih (q / 10) h1' h2'
      simp only [logUp, if_pos h10]
      constructor
      · rw [pow_succ]
        have := (le_div_iff₀ (by norm_num : (0:ℚ) < 10)).1 ha
        linarith
      · have := (div_lt_iff₀ (by norm_num : (0:ℚ) < 10)).1 hb
        rw [pow_succ] at this ⊢
        rw [pow_succ]
        linarith
    · simp only [logUp, if_neg h10]
      rw [pow_zero, zero_add, pow_one]
      exact ⟨h1, not_le.1 h10⟩

lemma logDown_spec (fuel : ℕ) (q : ℚ) (h0 : 0 < q) (h10 : q < 10)
    (hf : 1 ≤ 10 ^ fuel * q) :
    1 ≤ q * 10 ^ logDown fuel q ∧ q * 10 ^ logDown fuel q < 10 := by
  induction fuel generalizing q with
  | zero =>
    simp only [logDown, pow_zero, mul_one]
    rw [pow_zero, one_mul] at hf
    exact ⟨hf, h10⟩
  | succ fuel ih =>
    by_cases hq1 : q < 1
    · have hrec := ih (q * 10) (by positivity) (by linarith)
        (by
          have : (10:ℚ) ^ fuel * (q * 10) = 10 ^ (fuel + 1) * q := by
            rw [pow_succ]; ring
          rw [this]
          exact hf)
      simp only [logDown, if_pos hq1]
      have heq : q * 10 ^ (logDown fuel (q * 10) + 1)
          = q * 10 * 10 ^ logDown fuel (q * 10) := by
        rw [pow_succ]; ring
      rw [heq]
      exact hrec
    · simp only [logDown, if_neg hq1]
      rw [pow_zero, mul_one]
      exact ⟨not_lt.1 hq1, h10⟩

lemma rat_lt_pow_num (q : ℚ) (h1 : 1 ≤ q) : q < 10 ^ q.num.natAbs := by
  have hnum0 : 0 ≤ q.num := Rat.num_nonneg.2 (by linarith)
  have hden : (1 : ℚ) ≤ (q.den : ℚ) := by
    have := q.den_pos
    exact_mod_cast this
  have hqden : q * (q.den : ℚ) = (q.num : ℚ) := by
    have hden0 : ((q.den : ℚ)) ≠ 0 := by positivity
    have h := Rat.num_div_den q
    calc q * (q.den : ℚ) = ((q.num : ℚ) / (q.den : ℚ)) * (q.den : ℚ) := by
          rw [h]
      _ = (q.num : ℚ) := div_mul_cancel₀ _ hden0
  have hle : q ≤ (q.num : ℚ) := by
    calc q = q * 1 := (mul_one q).symm
      _ ≤ q * (q.den : ℚ) := by
          apply mul_le_mul_of_nonneg_left hden (by linarith)
      _ = (q.num : ℚ) := hqden
  have hnat : ((q.num.natAbs : ℕ) : ℚ) = (q.num : ℚ) := by
    rw [Int.cast_natAbs]
    exact congrArg _ (abs_of_nonneg hnum0)
  have hpow : (q.num.natAbs : ℕ) < 10 ^ q.num.natAbs :=
    Nat.lt_pow_self (by norm_num) _
  calc q ≤ (q.num : ℚ) := hle
    _ = ((q.num.natAbs : ℕ) : ℚ) := hnat.symm
    _ < ((10 ^ q.num.natAbs : ℕ) : ℚ) := by exact_mod_cast hpow
    _ = 10 ^ q.num.natAbs := by push_cast; ring

lemma rat_pow_den_le (q : ℚ) (h0 : 0 < q) : 1 ≤ 10 ^ q.den * q := by
  have hnum : (1 : ℚ) ≤ (q.num : ℚ) := by
    have := Rat.num_pos.2 h0
    exact_mod_cast this
  have hqden : q * (q.den : ℚ) = (q.num : ℚ) := by
    have hden0 : ((q.den : ℚ)) ≠ 0 := by positivity
    have h := Rat.num_div_den q
    calc q * (q.den : ℚ) = ((q.num : ℚ) / (q.den : ℚ)) * (q.den : ℚ) := by
          rw [h]
      _ = (q.num : ℚ) := div_mul_cancel₀ _ hden0
  have hle : (q.den : ℚ) ≤ 10 ^ q.den := by
    have h1 : (q.den : ℕ) < 10 ^ q.den := Nat.lt_pow_self (by norm_num) _
    calc (q.den : ℚ) ≤ ((10 ^ q.den : ℕ) : ℚ) := by exact_mod_cast h1.le
      _ = 10 ^ q.den := by push_cast; ring
  calc (1 : ℚ) ≤ (q.num : ℚ) := hnum
    _ = q * (q.den : ℚ) := hqden.symm
    _ ≤ q * 10 ^ q.den := by
        apply mul_le_mul_of_nonneg_left hle (le_of_lt h0)
    _ = 10 ^ q.den * q := by ring

lemma floorLog10_spec (q : ℚ) (h0 : 0 < q) :
    (10 : ℚ) ^ floorLog10 q ≤ q ∧ q < (10 : ℚ) ^ (floorLog10 q + 1) := by
  unfold floorLog10
  by_cases h1 : 1 ≤ q
  · rw [if_pos h1]
    obtain ⟨ha, hb⟩ := logUp_spec q.num.natAbs q h1 (rat_lt_pow_num q h1)
    constructor
    · rw [zpow_natCast]
      exact ha
    · have hcast : ((logUp q.num.natAbs q : ℕ) : ℤ) + 1
          = ((logUp q.num.natAbs q + 1 : ℕ) : ℤ) := by push_cast; ring
      rw [hcast, zpow_natCast]
      exact hb
  · rw [if_neg h1]
    obtain ⟨ha, hb⟩ := logDown_spec q.den q h0 (by linarith [not_le.1 h1])
      (rat_pow_den_le q h0)
    have hpow : (0 : ℚ) < 10 ^ logDown q.den q := by positivity
    constructor
    · rw [zpow_neg, zpow_natCast, ← one_div, div_le_iff₀ hpow]
      linarith
    · have hneg : -((logDown q.den q : ℕ) : ℤ) + 1 = 1 - (logDown q.den q : ℕ) := by
        ring
      rw [hneg, zpow_sub₀ (by norm_num : (10:ℚ) ≠ 0), zpow_one, zpow_natCast,
        lt_div_iff₀ hpow]
      linarith

/-- C8: for every quantity and every nonzero uncertainty,
`reduce_to_first_significant_digit` returns the quantity and the
uncertainty both rounded (half to even) to the decimal position
`-floor(log10(|uncertainty|))`, i.e. to the place `10^k` of the
uncertainty's first significant digit (`10^k ≤ |u| < 10^(k+1)`): each
returned value is an integer multiple of `10^k` within `10^k/2` of the
original.  When the uncertainty is zero the function raises
(`math.log10(0)`) and returns nothing. -/
theorem reduce_to_first_significant_digit_spec (q u : ℚ) :
    (u = 0 → reduce_to_first_significant_digit q u = none) ∧
    (u ≠ 0 → ∃ k : ℤ, (10 : ℚ) ^ k ≤ |u| ∧ |u| < (10 : ℚ) ^ (k + 1) ∧
      ∃ q' u', reduce_to_first_significant_digit q u = some (q', u') ∧
        (∃ m : ℤ, q' = (m : ℚ) * 10 ^ k) ∧ |q' - q| ≤ 10 ^ k / 2 ∧
        (∃ m : ℤ, u' = (m : ℚ) * 10 ^ k) ∧ |u' - u| ≤ 10 ^ k / 2) := by
  constructor
  · intro h
    simp [reduce_to_first_significant_digit, h]
  · intro hu
    have habs : 0 < |u| := abs_pos.2 hu
    obtain ⟨hlo, hhi⟩ := floorLog10_spec |u| habs
    refine ⟨floorLog10 |u|, hlo, hhi, ?_⟩
    refine ⟨pyRound (-floorLog10 |u|) q, pyRound (-floorLog10 |u|) u,
      ?_, ?_, ?_, ?_, ?_⟩
    · simp [reduce_to_first_significant_digit, hu]
    · have := (pyRound_spec (-floorLog10 |u|) q).1
      simpa using this
    · have := (pyRound_spec (-floorLog10 |u|) q).2
      simpa using this
    · have := (pyRound_spec (-floorLog10 |u|) u).1
      simpa using this
    · have := (pyRound_spec (-floorLog10 |u|) u).2
      simpa using this

/-- Witness for C8 at the concrete inputs (q, u) = (5, 0) and (5, 1/4). -/
theorem reduce_to_first_significant_digit_spec_witness :
    reduce_to_first_significant_digit 5 0 = none ∧
    (∃ k : ℤ, (10 : ℚ) ^ k ≤ |(1/4 : ℚ)| ∧ |(1/4 : ℚ)| < (10 : ℚ) ^ (k + 1) ∧
      ∃ q' u', reduce_to_first_significant_digit 5 (1/4) = some (q', u') ∧
        (∃ m : ℤ, q' = (m : ℚ) * 10 ^ k) ∧ |q' - 5| ≤ 10 ^ k / 2 ∧
        (∃ m : ℤ, u' = (m : ℚ) * 10 ^ k) ∧ |u' - 1/4| ≤ 10 ^ k / 2) :=
  ⟨(reduce_to_first_significant_digit_spec 5 0).1 rfl,
   (reduce_to_first_significant_digit_spec 5 (1/4)).2 (by norm_num)⟩

lemma firstNonzeroIdx_eq_some (l : List ℚ) (i : ℕ) (hi : i < l.length)
    (hnz : l.getD i 0 ≠ 0) (hzero : ∀ j, j < i → l.getD j 0 = 0) :
    firstNonzeroIdx l = some i := by
  induction l generalizing i with
  | nil => simp at hi
  | cons a l ih =>
    match i with
    | 0 =>
      simp only [List.getD_cons_zero] at hnz
      simp [firstNonzeroIdx, hnz]
    | j + 1 =>
      have ha : a = 0 := by
        have := hzero 0 (Nat.succ_pos j)
        simpa using this
      simp only [firstNonzeroIdx, ha, ne_eq, not_true_eq_false, if_neg,
        not_false_eq_true, ite_false]
      rw [ih j (Nat.lt_of_succ_lt_succ hi) (by simpa using hnz)
        (fun k hk => by simpa using hzero (k + 1) (Nat.succ_lt_succ hk))]
      rfl

lemma firstNonzeroIdx_eq_none (l : List ℚ) (h : ∀ v ∈ l, v = 0) :
    firstNonzeroIdx l = none := by
  induction l with
  | nil => rfl
  | cons a l ih =>
    have ha : a = 0 := h a (List.mem_cons_self a l)
    simp [firstNonzeroIdx, ha, ih (fun v hv => h v (List.mem_cons_of_mem a hv))]

/-- C2: for every pair of mean-data tables (of matching column lengths, as
numpy elementwise arithmetic requires) whose submission free-energy column
has some nonzero entry, `compute_geometric_mean_relative_efficiencies`
returns, from the first index `i` with nonzero submission free energy
onward: the std efficiency `sqrt(gmean(reference_var/var))`, the
absolute-bias efficiency `gmean(|reference_bias|/|bias|)` taken only over
indices where neither the submission bias nor the reference bias is close
to zero, and the RMSD efficiency
`sqrt(gmean((reference_var + reference_bias^2)/(var + bias^2)))`, where
`var` and `bias` come from the squared 'std' and the 'bias' columns. -/
theorem compute_geometric_mean_relative_efficiencies_spec (sqrtF : ℚ → ℚ)
    (gmeanF : List ℚ → ℚ) (d ref : MeanData) (L : ℕ)
    (hd1 : d.std.length = L) (hd2 : d.bias.length = L)
    (hr1 : ref.std.length = L) (hr2 : ref.bias.length = L)
    (i : ℕ) (hi : i < d.DG.length)
    (hnz : d.DG.getD i 0 ≠ 0) (hzero : ∀ j, j < i → d.DG.getD j 0 = 0) :
    compute_geometric_mean_relative_efficiencies sqrtF gmeanF d ref
      = some
        (sqrtF (gmeanF (List.zipWith (fun r v => r / v)
            ((ref.std.drop i).map (fun s => s ^ 2))
            ((d.std.drop i).map (fun s => s ^ 2)))),
         gmeanF ((((d.bias.drop i).zip (ref.bias.drop i)).filter
            (fun p => !(isclose0 p.1) && !(isclose0 p.2))).map
              (fun p => |p.2| / |p.1|)),
         sqrtF (gmeanF (List.zipWith (fun r v => r / v)
            (List.zipWith (fun rv rb => rv + rb ^ 2)
              ((ref.std.drop i).map (fun s => s ^ 2)) (ref.bias.drop i))
            (List.zipWith (fun v b => v + b ^ 2)
              ((d.std.drop i).map (fun s => s ^ 2)) (d.bias.drop i))))) := by
  unfold compute_geometric_mean_relative_efficiencies
  rw [firstNonzeroIdx_eq_some d.DG i hi hnz hzero]
  simp only [List.filter_filter]
  have hcomm : ∀ p : ℚ × ℚ,
      (!isclose0 p.2 && !isclose0 p.1) = (!isclose0 p.1 && !isclose0 p.2) :=
    fun p => Bool.and_comm _ _
  simp only [hcomm]

/-- Witness for C2 at a concrete input. -/
theorem compute_geometric_mean_relative_efficiencies_spec_witness :
    compute_geometric_mean_relative_efficiencies wSqrt wGmean w2d w2ref
      = some
        (wSqrt (wGmean (List.zipWith (fun r v => r / v)
            ((w2ref.std.drop 1).map (fun s => s ^ 2))
            ((w2d.std.drop 1).map (fun s => s ^ 2)))),
         wGmean ((((w2d.bias.drop 1).zip (w2ref.bias.drop 1)).filter
            (fun p => !(isclose0 p.1) && !(isclose0 p.2))).map
              (fun p => |p.2| / |p.1|)),
         wSqrt (wGmean (List.zipWith (fun r v => r / v)
            (List.zipWith (fun rv rb => rv + rb ^ 2)
              ((w2ref.std.drop 1).map (fun s => s ^ 2)) (w2ref.bias.drop 1))
            (List.zipWith (fun v b => v + b ^ 2)
              ((w2d.std.drop 1).map (fun s => s ^ 2)) (w2d.bias.drop 1))))) :=
  compute_geometric_mean_relative_efficiencies_spec wSqrt wGmean w2d w2ref 2
    rfl rfl rfl rfl 1 (by decide) (by decide) (by decide)

/-- C3: `compute_all_mean_relative_efficiencies` returns two triples: the
uncorrected relative efficiencies of `mean_data` against
`reference_mean_data` — equal to
`compute_geometric_mean_relative_efficiencies` applied to the unmodified
inputs — and the bias-corrected relative efficiencies obtained by
recomputing the same statistics after subtracting the final value of the
reference 'bias' column from the whole reference bias trajectory. -/
theorem compute_all_mean_relative_efficiencies_spec (sqrtF : ℚ → ℚ)
    (gmeanF : List ℚ → ℚ) (d ref : MeanData) (h : ref.bias ≠ []) :
    ∃ finalBias, ref.bias.getLast? = some finalBias ∧
      (compute_all_mean_relative_efficiencies sqrtF gmeanF d ref).1
        = (compute_geometric_mean_relative_efficiencies sqrtF gmeanF d ref,
           compute_geometric_mean_relative_efficiencies sqrtF gmeanF d
             { ref with bias := ref.bias.map (fun b => b - finalBias) }) :=
  ⟨ref.bias.getLastD 0, getLast?_eq_getLastD ref.bias h, rfl⟩

/-- Witness for C3 at a concrete input. -/
theorem compute_all_mean_relative_efficiencies_spec_witness :
    ∃ finalBias, w2ref.bias.getLast? = some finalBias ∧
      (compute_all_mean_relative_efficiencies wSqrt wGmean w2d w2ref).1
        = (compute_geometric_mean_relative_efficiencies wSqrt wGmean w2d w2ref,
           compute_geometric_mean_relative_efficiencies wSqrt wGmean w2d
             { w2ref with bias := w2ref.bias.map (fun b => b - finalBias) }) :=
  compute_all_mean_relative_efficiencies_spec wSqrt wGmean w2d w2ref (by decide)

/-- C10: `compute_all_mean_relative_efficiencies` leaves both of its
arguments unchanged: in the state-threaded embedding, the caller-visible
final states of `mean_data` and `reference_mean_data` hold, column by
column, the same values as before the call, because the bias-correction
subtraction is applied only to the `deepcopy` of the reference table. -/
theorem compute_all_mean_relative_efficiencies_frame (sqrtF : ℚ → ℚ)
    (gmeanF : List ℚ → ℚ) (d ref : MeanData) :
    ((compute_all_mean_relative_efficiencies sqrtF gmeanF d ref).2.1.DG = d.DG
      ∧ (compute_all_mean_relative_efficiencies sqrtF gmeanF d ref).2.1.DG_CI = d.DG_CI
      ∧ (compute_all_mean_relative_efficiencies sqrtF gmeanF d ref).2.1.std = d.std
      ∧ (compute_all_mean_relative_efficiencies sqrtF gmeanF d ref).2.1.bias = d.bias
      ∧ (compute_all_mean_relative_efficiencies sqrtF gmeanF d ref).2.1.simPercentage = d.simPercentage
      ∧ (compute_all_mean_relative_efficiencies sqrtF gmeanF d ref).2.1.nEnergyEval = d.nEnergyEval)
    ∧ ((compute_all_mean_relative_efficiencies sqrtF gmeanF d ref).2.2.DG = ref.DG
      ∧ (compute_all_mean_relative_efficiencies sqrtF gmeanF d ref).2.2.DG_CI = ref.DG_CI
      ∧ (compute_all_mean_relative_efficiencies sqrtF gmeanF d ref).2.2.std = ref.std
      ∧ (compute_all_mean_relative_efficiencies sqrtF gmeanF d ref).2.2.bias = ref.bias
      ∧ (compute_all_mean_relative_efficiencies sqrtF gmeanF d ref).2.2.simPercentage = ref.simPercentage
      ∧ (compute_all_mean_relative_efficiencies sqrtF gmeanF d ref).2.2.nEnergyEval = ref.nEnergyEval) :=
  ⟨⟨rfl, rfl, rfl, rfl, rfl, rfl⟩, ⟨rfl, rfl, rfl, rfl, rfl, rfl⟩⟩

lemma everyNth_one (l : List ℚ) : everyNth 1 l = l := by
  simp only [everyNth, Nat.mod_one]
  rw [List.filter_eq_self.2 (fun a _ => by simp)]
  exact List.enum_map_snd l

lemma firstNonzeroIdx_of_exists (l : List ℚ) (h : ∃ v ∈ l, v ≠ 0) :
    ∃ i, i < l.length ∧ l.getD i 0 ≠ 0 ∧ (∀ j, j < i → l.getD j 0 = 0) ∧
      firstNonzeroIdx l = some i := by
  induction l with
  | nil => simp at h
  | cons a rest ih =>
    by_cases ha : a = 0
    · have hrest : ∃ v ∈ rest, v ≠ 0 := by
        obtain ⟨v, hv, hvne⟩ := h
        rcases List.mem_cons.1 hv with hva | hvr
        · exact absurd (hva.trans ha) hvne
        · exact ⟨v, hvr, hvne⟩
      obtain ⟨i, hi, hnz, hzero, heq⟩ := ih hrest
      refine ⟨i + 1, Nat.succ_lt_succ hi, by simpa using hnz, ?_, ?_⟩
      · intro j hj
        match j with
        | 0 => simpa using ha
        | k + 1 => simpa using hzero k (Nat.lt_of_succ_lt_succ hj)
      · simp [firstNonzeroIdx, ha, heq]
    · exact ⟨0, Nat.succ_pos _, by simpa using ha, by omega,
        by simp [firstNonzeroIdx, ha]⟩

/-- C9: for every mean-data table whose free-energy column contains a
nonzero value, `plot_mean_free_energy` called with `start = None` and
`plot_mean_data` silently discard all leading rows with a zero
free-energy estimate and plot starting from the first index with a
nonzero estimate, and the index lookup never fails; if all estimates are
zero, the lookup `np.nonzero(...)[0][0]` raises an `IndexError` (embedded
as `none`). -/
theorem plot_mean_free_energy_start_spec (d : MeanData) :
    ((∃ v ∈ d.DG, v ≠ 0) →
      ∃ i, i < d.DG.length ∧ d.DG.getD i 0 ≠ 0 ∧
        (∀ j, j < i → d.DG.getD j 0 = 0) ∧
        plot_mean_free_energy_series d "Simulation percentage" none 1 false
          = some (d.simPercentage.drop i, d.DG.drop i, d.DG_CI.drop i) ∧
        plot_mean_data_series d "N energy evaluations"
          = some (((d.nEnergyEval.drop i).map (fun v => v / 1000000),
              d.DG.drop i, d.DG_CI.drop i),
            ((d.nEnergyEval.drop i).map (fun v => v / 1000000),
              d.std.drop i),
            ((d.nEnergyEval.drop i).map (fun v => v / 1000000),
              d.bias.drop i)))
    ∧ ((∀ v ∈ d.DG, v = 0) →
      plot_mean_free_energy_series d "Simulation percentage" none 1 false = none ∧
      plot_mean_data_series d "N energy evaluations" = none) := by
  constructor
  · intro h
    obtain ⟨i, hi, hnz, hzero, heq⟩ := firstNonzeroIdx_of_exists d.DG h
    refine ⟨i, hi, hnz, hzero, ?_, ?_⟩
    · unfold plot_mean_free_energy_series
      rw [heq]
      simp [everyNth_one, getColumn]
    · unfold plot_mean_data_series
      rw [heq]
      unfold plot_mean_free_energy_series
      simp [everyNth_one, getColumn]
  · intro h
    have heq := firstNonzeroIdx_eq_none d.DG h
    constructor
    · unfold plot_mean_free_energy_series
      rw [heq]
    · unfold plot_mean_data_series
      rw [heq]

/-- Witness for C9 at concrete inputs: `w2d` has a nonzero estimate,
`wZeroData` has none. -/
theorem plot_mean_free_energy_start_spec_witness :
    (∃ i, i < w2d.DG.length ∧ w2d.DG.getD i 0 ≠ 0 ∧
        (∀ j, j < i → w2d.DG.getD j 0 = 0) ∧
        plot_mean_free_energy_series w2d "Simulation percentage" none 1 false
          = some (w2d.simPercentage.drop i, w2d.DG.drop i, w2d.DG_CI.drop i) ∧
        plot_mean_data_series w2d "N energy evaluations"
          = some (((w2d.nEnergyEval.drop i).map (fun v => v / 1000000),
              w2d.DG.drop i, w2d.DG_CI.drop i),
            ((w2d.nEnergyEval.drop i).map (fun v => v / 1000000),
              w2d.std.drop i),
            ((w2d.nEnergyEval.drop i).map (fun v => v / 1000000),
              w2d.bias.drop i)))
    ∧ plot_mean_free_energy_series wZeroData "Simulation percentage" none 1 false = none
    ∧ plot_mean_data_series wZeroData "N energy evaluations" = none :=
  ⟨(plot_mean_free_energy_start_spec w2d).1 ⟨3, by decide, by decide⟩,
   (plot_mean_free_energy_start_spec wZeroData).2 (by decide)⟩

lemma uniqAux_mem (l : List String) (seen : List String) (b : String)
    (hb : b ∈ uniqAux seen l) : b ∈ l ∧ b ∉ seen := by
  induction l generalizing seen with
  | nil => simp [uniqAux] at hb
  | cons a rest ih =>
    by_cases ha : a ∈ seen
    · simp only [uniqAux, if_pos ha] at hb
      obtain ⟨h1, h2⟩ := ih seen hb
      exact ⟨List.mem_cons_of_mem a h1, h2⟩
    · simp only [uniqAux, if_neg ha] at hb
      rcases List.mem_cons.1 hb with h | h
      · exact ⟨h ▸ List.mem_cons_self a rest, h ▸ ha⟩
      · obtain ⟨h1, h2⟩ := ih (a :: seen) h
        exact ⟨List.mem_cons_of_mem a h1,
          fun hmem => h2 (List.mem_cons_of_mem a hmem)⟩

lemma uniqAux_nodup (l : List String) (seen : List String) :
    (uniqAux seen l).Nodup := by
  induction l generalizing seen with
  | nil => simp [uniqAux]
  | cons a rest ih =>
    by_cases ha : a ∈ seen
    · simpa [uniqAux, if_pos ha] using ih seen
    · simp only [uniqAux, if_neg ha]
      refine List.nodup_cons.2 ⟨?_, ih (a :: seen)⟩
      intro hmem
      exact (uniqAux_mem rest (a :: seen) a hmem).2 (List.mem_cons_self a seen)

lemma uniq_nodup (l : List String) : (uniq l).Nodup := uniqAux_nodup l []

lemma insertSorted_perm (s : String) (l : List String) :
    (insertSorted s l).Perm (s :: l) := by
  induction l with
  | nil => exact List.Perm.refl _
  | cons a rest ih =>
    by_cases h : strLt s a
    · simp [insertSorted, h]
    · simp only [insertSorted, if_neg h]
      exact List.Perm.trans (ih.cons a) (List.Perm.swap s a rest)

lemma sortStrings_perm (l : List String) : (sortStrings l).Perm l := by
  induction l with
  | nil => exact List.Perm.refl _
  | cons a rest ih =>
    exact List.Perm.trans (insertSorted_perm a (sortStrings rest)) (ih.cons a)

lemma sortedUniqueIds_nodup (rows : List ReplicateRow) :
    (sortedUniqueIds rows).Nodup :=
  ((sortStrings_perm _).nodup_iff).2 (uniq_nodup _)

lemma dlookup_append_right {α : Type} (A B : List (String × α)) (k : String)
    (hA : ∀ p ∈ A, p.1 ≠ k) : dlookup (A ++ B) k = dlookup B k := by
  unfold dlookup
  have hA' : A.filter (fun p => p.1 == k) = [] :=
    List.filter_eq_nil_iff.2 (fun p hp => by simpa using hA p hp)
  rw [List.filter_append, hA', List.nil_append]

lemma dlookup_append_left {α : Type} (A B : List (String × α)) (k : String)
    (hB : ∀ p ∈ B, p.1 ≠ k) : dlookup (A ++ B) k = dlookup A k := by
  unfold dlookup
  have hB' : B.filter (fun p => p.1 == k) = [] :=
    List.filter_eq_nil_iff.2 (fun p hp => by simpa using hB p hp)
  rw [List.filter_append, hB', List.append_nil]

lemma dlookup_map_of_nodup {α : Type} (xs : List String) (hnd : xs.Nodup)
    (key : String → String) (hinj : ∀ a b, key a = key b → a = b)
    (val : String → α) (x : String) (hx : x ∈ xs) :
    dlookup (xs.map (fun a => (key a, val a))) (key x) = some (val x) := by
  induction xs with
  | nil => simp at hx
  | cons a rest ih =>
    obtain ⟨hna, hndr⟩ := List.nodup_cons.1 hnd
    rcases List.mem_cons.1 hx with rfl | hxr
    · have hrest : (rest.map (fun a => (key a, val a))).filter
          (fun p => p.1 == key x) = [] := by
        apply List.filter_eq_nil_iff.2
        intro p hp
        obtain ⟨b, hb, rfl⟩ := List.mem_map.1 hp
        simp only [beq_iff_eq]
        intro hkb
        exact hna (hinj b x hkb ▸ hb)
      unfold dlookup
      simp only [List.map_cons, List.filter_cons, beq_self_eq_true,
        if_pos, hrest]
      simp
    · have hne : key a ≠ key x := fun h => hna (hinj a x h ▸ hxr)
      unfold dlookup at ih ⊢
      simp only [List.map_cons, List.filter_cons]
      rw [if_neg (by simpa using hne)]
      exact ih hndr hxr

lemma str_append_right_cancel (a b s : String) (h : a ++ s = b ++ s) :
    a = b := by
  cases a with
  | mk la =>
    cases b with
    | mk lb =>
      cases s with
      | mk ls =>
        have hdata : la ++ ls = lb ++ ls := congrArg String.data h
        exact congrArg String.mk (List.append_cancel_right hdata)

/-- C7: for every submission, `export_submissions` exports, for each
system name in the submission's mean trajectory, a
`reference_difference` list equal elementwise to the submission's mean
free-energy trajectory minus the reference final free energy for that
system, alongside the per-replicate DG, dDG, cpu_times and
n_energy_evaluations lists for each of the replicate system ids.  (The
hypothesis `hdisj` rules out a replicate system id colliding with a
`-mean` dictionary key, in which case the later dict assignment would
overwrite the replicate entry.) -/
theorem export_submissions_spec (subs : List ExpSubmission)
    (refFE : String → ℚ) (sub : ExpSubmission) (hsub : sub ∈ subs)
    (hdisj : ∀ name ∈ uniq (sub.mean_free_energies.map (fun r => r.systemName)),
      name ++ "-mean" ∉ sortedUniqueIds sub.data) :
    (sub.receipt_id, exported_data sub refFE) ∈ export_submissions subs refFE
    ∧ (∀ name ∈ uniq (sub.mean_free_energies.map (fun r => r.systemName)),
        dlookup (exported_data sub refFE) (name ++ "-mean")
          = some [("DG", (sub.mean_free_energies.filter
                (fun r => r.systemName == name)).map (fun r => r.dg)),
              ("DG_CI", (sub.mean_free_energies.filter
                (fun r => r.systemName == name)).map (fun r => r.dgCI)),
              ("reference_difference", (sub.mean_free_energies.filter
                (fun r => r.systemName == name)).map
                  (fun r => r.dg - refFE name)),
              ("n_energy_evaluations", (sub.mean_free_energies.filter
                (fun r => r.systemName == name)).map (fun r => r.neval))])
    ∧ (∀ sid ∈ sortedUniqueIds sub.data,
        dlookup (exported_data sub refFE) sid
          = some [("DG", (sub.data.filter
                (fun r => r.systemId == sid)).map (fun r => r.dg)),
              ("dDG", (sub.data.filter
                (fun r => r.systemId == sid)).map (fun r => r.ddg)),
              ("cpu_times", (sub.data.filter
                (fun r => r.systemId == sid)).map (fun r => r.cpu)),
              ("n_energy_evaluations", (sub.data.filter
                (fun r => r.systemId == sid)).map (fun r => r.neval))]) := by
  refine ⟨List.mem_map.2 ⟨sub, hsub, rfl⟩, ?_, ?_⟩
  · intro name hname
    unfold exported_data
    rw [dlookup_append_right _ _ _ (by
      intro p hp
      obtain ⟨sid, hsid, rfl⟩ := List.mem_map.1 hp
      show sid ≠ name ++ "-mean"
      intro hk
      exact hdisj name hname (hk ▸ hsid))]
    have := dlookup_map_of_nodup
      (uniq (sub.mean_free_energies.map (fun r => r.systemName)))
      (uniq_nodup _) (fun a => a ++ "-mean")
      (fun a b h => str_append_right_cancel a b "-mean" h)
      (fun name => meanEntry sub.mean_free_energies refFE name) name hname
    rw [this]
    rfl
  · intro sid hsid
    unfold exported_data
    rw [dlookup_append_left _ _ _ (by
      intro p hp
      obtain ⟨name, hname, rfl⟩ := List.mem_map.1 hp
      show name ++ "-mean" ≠ sid
      intro hk
      rw [← hk] at hsid
      exact hdisj name hname hsid)]
    have := dlookup_map_of_nodup (sortedUniqueIds sub.data)
      (sortedUniqueIds_nodup _) (fun a => a) (fun a b h => h)
      (fun sid => replicateEntry sub.data sid) sid hsid
    rw [this]
    rfl

/-- Witness for C7 at a concrete input. -/
theorem export_submissions_spec_witness :
    (wExpSub.receipt_id, exported_data wExpSub wRefFE)
        ∈ export_submissions [wExpSub] wRefFE
    ∧ (∀ name ∈ uniq (wExpSub.mean_free_energies.map (fun r => r.systemName)),
        dlookup (exported_data wExpSub wRefFE) (name ++ "-mean")
          = some [("DG", (wExpSub.mean_free_energies.filter
                (fun r => r.systemName == name)).map (fun r => r.dg)),
              ("DG_CI", (wExpSub.mean_free_energies.filter
                (fun r => r.systemName == name)).map (fun r => r.dgCI)),
              ("reference_difference", (wExpSub.mean_free_energies.filter
                (fun r => r.systemName == name)).map
                  (fun r => r.dg - wRefFE name)),
              ("n_energy_evaluations", (wExpSub.mean_free_energies.filter
                (fun r => r.systemName == name)).map (fun r => r.neval))])
    ∧ (∀ sid ∈ sortedUniqueIds wExpSub.data,
        dlookup (exported_data wExpSub wRefFE) sid
          = some [("DG", (wExpSub.data.filter
                (fun r => r.systemId == sid)).map (fun r => r.dg)),
              ("dDG", (wExpSub.data.filter
                (fun r => r.systemId == sid)).map (fun r => r.ddg)),
              ("cpu_times", (wExpSub.data.filter
                (fun r => r.systemId == sid)).map (fun r => r.cpu)),
              ("n_energy_evaluations", (wExpSub.data.filter
                (fun r => r.systemId == sid)).map (fun r => r.neval))]) :=
  export_submissions_spec [wExpSub] wRefFE wExpSub
    (List.mem_singleton.2 rfl) (by decide)

lemma omapM_some_length {α β : Type} (f : α → Option β) (l : List α)
    (r : List β) (h : omapM f l = some r) : r.length = l.length := by
  induction l generalizing r with
  | nil =>
    simp only [omapM] at h
    cases h
    rfl
  | cons a rest ih =>
    simp only [omapM] at h
    cases hfa : f a with
    | none => rw [hfa] at h; exact absurd h (by simp)
    | some b =>
      rw [hfa] at h
      cases hrest : omapM f rest with
      | none => rw [hrest] at h; exact absurd h (by simp)
      | some bs =>
        rw [hrest] at h
        cases h
        simp [ih bs hrest]

lemma omapM_some_getElem {α β : Type} (f : α → Option β) (l : List α)
    (r : List β) (h : omapM f l = some r) (k : ℕ) (hk : k < l.length) :
    r[k]? = f (l.get ⟨k, hk⟩) := by
  induction l generalizing r k with
  | nil => simp at hk
  | cons a rest ih =>
    simp only [omapM] at h
    cases hfa : f a with
    | none => rw [hfa] at h; exact absurd h (by simp)
    | some b =>
      rw [hfa] at h
      cases hrest : omapM f rest with
      | none => rw [hrest] at h; exact absurd h (by simp)
      | some bs =>
        rw [hrest] at h
        cases h
        match k with
        | 0 => simpa using hfa.symm
        | k' + 1 =>
          simpa using ih bs hrest k' (Nat.lt_of_succ_lt_succ hk)

lemma efficiencyTableCells_eq (rows : List (List (List String)))
    (refRow : List (List String)) :
    efficiencyTableCells rows refRow = [
      (("CB8-G3", column_names.getD 0 ""), tableColumn rows refRow 0 0),
      (("CB8-G3", column_names.getD 1 ""), tableColumn rows refRow 0 1),
      (("CB8-G3", statistic_names.getD 0 ""), tableColumn rows refRow 0 2),
      (("CB8-G3", statistic_names.getD 1 ""), tableColumn rows refRow 0 3),
      (("CB8-G3", statistic_names.getD 2 ""), tableColumn rows refRow 0 4),
      (("OA-G3", column_names.getD 0 ""), tableColumn rows refRow 1 0),
      (("OA-G3", column_names.getD 1 ""), tableColumn rows refRow 1 1),
      (("OA-G3", statistic_names.getD 0 ""), tableColumn rows refRow 1 2),
      (("OA-G3", statistic_names.getD 1 ""), tableColumn rows refRow 1 3),
      (("OA-G3", statistic_names.getD 2 ""), tableColumn rows refRow 1 4),
      (("OA-G6", column_names.getD 0 ""), tableColumn rows refRow 2 0),
      (("OA-G6", column_names.getD 1 ""), tableColumn rows refRow 2 1),
      (("OA-G6", statistic_names.getD 0 ""), tableColumn rows refRow 2 2),
      (("OA-G6", statistic_names.getD 1 ""), tableColumn rows refRow 2 3),
      (("OA-G6", statistic_names.getD 2 ""), tableColumn rows refRow 2 4)] :=
  rfl

lemma referenceCells_shape (pyReprF : ℚ → String) (yank : YankAnalysis)
    (nIter : ℕ) (system_name : String) (c : List String)
    (h : referenceCells pyReprF yank nIter system_name = some c) :
    ∃ a b, c = [a, b, "1.0", "1.0", "1.0"] := by
  simp only [referenceCells] at h
  split at h
  · split at h
    · exact absurd h (by simp)
    · split at h
      · exact absurd h (by simp)
      · cases h
        exact ⟨_, _, rfl⟩
  · exact absurd h (by simp)

lemma submissionCells_nonspecial (sqrtF : ℚ → ℚ) (gmeanF : List ℚ → ℚ)
    (pyReprF : ℚ → String) (fmtF : ℕ → ℚ → String) (yank : YankAnalysis)
    (s : Submission) (sys : String) (c : List String)
    (hns : isSpecialCase s sys = false)
    (h : submissionCells sqrtF gmeanF pyReprF fmtF yank s sys = some c) :
    ∃ a b s0 s1 s2, c = [a, b, s0, s1, s2] ∧
      claimedStatCells sqrtF gmeanF fmtF yank s sys = some [s0, s1, s2] := by
  simp only [submissionCells, hns, Bool.false_eq_true, if_false] at h
  split at h
  · exact absurd h (by simp)
  · next n_energy heq1 =>
    split at h
    · exact absurd h (by simp)
    · next b0 heq2 =>
      split at h
      · next rel corr heq3 heq4 =>
        split at h
        · next dg dg_CI heq5 heq6 =>
          split at h
          · exact absurd h (by simp)
          · next rc heq7 =>
            cases h
            refine ⟨_, _, _, _, _, rfl, ?_⟩
            simp only [claimedStatCells, heq1, heq2, heq3, heq4]
        · exact absurd h (by simp)
      · exact absurd h (by simp)

/-- C5: in the table produced by `print_relative_efficiency_table`, the
row for the reference method OpenMM/HREX is always appended last, and for
every one of the three systems its three efficiency entries (std,
absolute bias, RMSD) are the string '1.0', since every efficiency is
defined relative to the reference itself. -/
theorem print_relative_efficiency_table_reference_row (sqrtF : ℚ → ℚ)
    (gmeanF : List ℚ → ℚ) (pyReprF : ℚ → String) (fmtF : ℕ → ℚ → String)
    (nIter : ℕ) (subs : List Submission) (yank : YankAnalysis) (t : EffTable)
    (ht : print_relative_efficiency_table sqrtF gmeanF pyReprF fmtF nIter
      subs yank = some t) :
    t.methods.getLast? = some "OpenMM/HREX"
    ∧ ∀ sys ∈ system_names, ∀ stat ∈ statistic_names,
        (tableLookup t.cells sys stat).getLast? = some "1.0" := by
  simp only [print_relative_efficiency_table] at ht
  split at ht
  · exact absurd ht (by simp)
  · next rows hrows =>
    split at ht
    · exact absurd ht (by simp)
    · next refRow href =>
      cases ht
      have hlen : refRow.length = 3 := by
        have := omapM_some_length _ _ _ href
        simpa [system_names] using this
      have hshape : ∀ i, i < 3 →
          ∃ a b, refRow.getD i [] = [a, b, "1.0", "1.0", "1.0"] := by
        intro i hi
        have hgi := omapM_some_getElem _ _ _ href i
          (by simpa [system_names] using hi)
        cases hc : refRow[i]? with
        | none =>
          have := List.getElem?_eq_none_iff.1 hc
          omega
        | some cell =>
          rw [hc] at hgi
          obtain ⟨a, b, hab⟩ := referenceCells_shape _ _ _ _ _ hgi.symm
          exact ⟨a, b, by rw [List.getD_eq_getElem?_getD, hc, hab]; rfl⟩
      constructor
      · show (subs.map (fun s => s.paper_name)
            ++ [YANK_METHOD_PAPER_NAME]).getLast? = some "OpenMM/HREX"
        rw [List.getLast?_concat]
        rfl
      · intro sys hsys stat hstat
        simp only [system_names, List.mem_cons, List.not_mem_nil,
          or_false] at hsys
        simp only [statistic_names, List.mem_cons, List.not_mem_nil,
          or_false] at hstat
        obtain ⟨a0, b0, h0⟩ := hshape 0 (by norm_num)
        obtain ⟨a1, b1, h1⟩ := hshape 1 (by norm_num)
        obtain ⟨a2, b2, h2⟩ := hshape 2 (by norm_num)
        simp only [List.getD_eq_getElem?_getD] at h0 h1 h2
        rcases hsys with rfl | rfl | rfl <;> rcases hstat with rfl | rfl | rfl <;>
          simp +decide [tableLookup, efficiencyTableCells_eq, List.find?,
            tableColumn, List.getLast?_concat, h0, h1, h2]

lemma tableColumn_getD_of (rows : List (List (List String)))
    (refRow : List (List String)) (i j k : ℕ) (rowk : List (List String))
    (cell : List String) (hrk : rows[k]? = some rowk)
    (hci : rowk[i]? = some cell) :
    (tableColumn rows refRow i j).getD k "" = cell.getD j "" := by
  have hklen : k < rows.length := by
    by_contra hge
    rw [List.getElem?_eq_none_iff.2 (by omega)] at hrk
    exact absurd hrk (by simp)
  unfold tableColumn
  rw [List.getD_eq_getElem?_getD,
    List.getElem?_append_left (by simpa using hklen), List.getElem?_map, hrk]
  simp [List.getD_eq_getElem?_getD, hci]

/-- C4 (amended): for every submitted method and every one of the three
systems, except the pairs the code special-cases (GROMACS/EE on CB8-G3
and GROMACS/CT-NS-long off CB8-G3, whose entries are left empty),
`print_relative_efficiency_table` enters in the table the method's
relative std, absolute-bias and RMSD efficiencies computed against the
YANK reference mean trajectory truncated at the method's final number of
energy evaluations. -/
theorem print_relative_efficiency_table_nonspecial (sqrtF : ℚ → ℚ)
    (gmeanF : List ℚ → ℚ) (pyReprF : ℚ → String) (fmtF : ℕ → ℚ → String)
    (nIter : ℕ) (subs : List Submission) (yank : YankAnalysis) (t : EffTable)
    (ht : print_relative_efficiency_table sqrtF gmeanF pyReprF fmtF nIter
      subs yank = some t)
    (k : ℕ) (hk : k < subs.length) (sys : String) (hsys : sys ∈ system_names)
    (hns : isSpecialCase (subs.get ⟨k, hk⟩) sys = false) :
    ∃ cells, claimedStatCells sqrtF gmeanF fmtF yank (subs.get ⟨k, hk⟩) sys
        = some cells ∧
      ∀ j, j < 3 →
        (tableLookup t.cells sys (statistic_names.getD j "")).getD k ""
          = cells.getD j "" := by
  simp only [print_relative_efficiency_table] at ht
  split at ht
  · exact absurd ht (by simp)
  · next rows hrows =>
    split at ht
    · exact absurd ht (by simp)
    · next refRow href =>
      cases ht
      have hrl : rows.length = subs.length := omapM_some_length _ _ _ hrows
      have hgk := omapM_some_getElem _ _ _ hrows k hk
      cases hrk : rows[k]? with
      | none =>
        have := List.getElem?_eq_none_iff.1 hrk
        omega
      | some rowk =>
        rw [hrk] at hgk
        have hrowk : omapM (fun sys => submissionCells sqrtF gmeanF pyReprF
            fmtF yank (subs.get ⟨k, hk⟩) sys) system_names = some rowk :=
          hgk.symm
        have hrkl : rowk.length = 3 := by
          have := omapM_some_length _ _ _ hrowk
          simpa [system_names] using this
        simp only [system_names, List.mem_cons, List.not_mem_nil,
          or_false] at hsys
        rcases hsys with rfl | rfl | rfl
        · have hgi := omapM_some_getElem _ _ _ hrowk 0 (by simp [system_names])
          cases hci : rowk[0]? with
          | none =>
            have := List.getElem?_eq_none_iff.1 hci
            omega
          | some cell =>
            rw [hci] at hgi
            obtain ⟨a, b, s0, s1, s2, hcell, hclaim⟩ :=
              submissionCells_nonspecial _ _ _ _ _ _ _ _ hns hgi.symm
            refine ⟨[s0, s1, s2], hclaim, ?_⟩
            intro j hj
            have hcol0 : tableLookup (efficiencyTableCells rows refRow)
                "CB8-G3" (statistic_names.getD 0 "")
                = tableColumn rows refRow 0 2 := by
              simp +decide [tableLookup, efficiencyTableCells_eq, List.find?,
                statistic_names]
            have hcol1 : tableLookup (efficiencyTableCells rows refRow)
                "CB8-G3" (statistic_names.getD 1 "")
                = tableColumn rows refRow 0 3 := by
              simp +decide [tableLookup, efficiencyTableCells_eq, List.find?,
                statistic_names]
            have hcol2 : tableLookup (efficiencyTableCells rows refRow)
                "CB8-G3" (statistic_names.getD 2 "")
                = tableColumn rows refRow 0 4 := by
              simp +decide [tableLookup, efficiencyTableCells_eq, List.find?,
                statistic_names]
            interval_cases j
            · rw [hcol0, tableColumn_getD_of rows refRow 0 2 k rowk cell hrk hci,
                hcell]
              rfl
            · rw [hcol1, tableColumn_getD_of rows refRow 0 3 k rowk cell hrk hci,
                hcell]
              rfl
            · rw [hcol2, tableColumn_getD_of rows refRow 0 4 k rowk cell hrk hci,
                hcell]
              rfl
        · have hgi := omapM_some_getElem _ _ _ hrowk 1 (by simp [system_names])
          cases hci : rowk[1]? with
          | none =>
            have := List.getElem?_eq_none_iff.1 hci
            omega
          | some cell =>
            rw [hci] at hgi
            obtain ⟨a, b, s0, s1, s2, hcell, hclaim⟩ :=
              submissionCells_nonspecial _ _ _ _ _ _ _ _ hns hgi.symm
            refine ⟨[s0, s1, s2], hclaim, ?_⟩
            intro j hj
            have hcol0 : tableLookup (efficiencyTableCells rows refRow)
                "OA-G3" (statistic_names.getD 0 "")
                = tableColumn rows refRow 1 2 := by
              simp +decide [tableLookup, efficiencyTableCells_eq, List.find?,
                statistic_names]
            have hcol1 : tableLookup (efficiencyTableCells rows refRow)
                "OA-G3" (statistic_names.getD 1 "")
                = tableColumn rows refRow 1 3 := by
              simp +decide [tableLookup, efficiencyTableCells_eq, List.find?,
                statistic_names]
            have hcol2 : tableLookup (efficiencyTableCells rows refRow)
                "OA-G3" (statistic_names.getD 2 "")
                = tableColumn rows refRow 1 4 := by
              simp +decide [tableLookup, efficiencyTableCells_eq, List.find?,
                statistic_names]
            interval_cases j
            · rw [hcol0, tableColumn_getD_of rows refRow 1 2 k rowk cell hrk hci,
                hcell]
              rfl
            · rw [hcol1, tableColumn_getD_of rows refRow 1 3 k rowk cell hrk hci,
                hcell]
              rfl
            · rw [hcol2, tableColumn_getD_of rows refRow 1 4 k rowk cell hrk hci,
                hcell]
              rfl
        · have hgi := omapM_some_getElem _ _ _ hrowk 2 (by simp [system_names])
          cases hci : rowk[2]? with
          | none =>
            have := List.getElem?_eq_none_iff.1 hci
            omega
          | some cell =>
            rw [hci] at hgi
            obtain ⟨a, b, s0, s1, s2, hcell, hclaim⟩ :=
              submissionCells_nonspecial _ _ _ _ _ _ _ _ hns hgi.symm
            refine ⟨[s0, s1, s2], hclaim, ?_⟩
            intro j hj
            have hcol0 : tableLookup (efficiencyTableCells rows refRow)
                "OA-G6" (statistic_names.getD 0 "")
                = tableColumn rows refRow 2 2 := by
              simp +decide [tableLookup, efficiencyTableCells_eq, List.find?,
                statistic_names]
            have hcol1 : tableLookup (efficiencyTableCells rows refRow)
                "OA-G6" (statistic_names.getD 1 "")
                = tableColumn rows refRow 2 3 := by
              simp +decide [tableLookup, efficiencyTableCells_eq, List.find?,
                statistic_names]
            have hcol2 : tableLookup (efficiencyTableCells rows refRow)
                "OA-G6" (statistic_names.getD 2 "")
                = tableColumn rows refRow 2 4 := by
              simp +decide [tableLookup, efficiencyTableCells_eq, List.find?,
                statistic_names]
            interval_cases j
            · rw [hcol0, tableColumn_getD_of rows refRow 2 2 k rowk cell hrk hci,
                hcell]
              rfl
            · rw [hcol1, tableColumn_getD_of rows refRow 2 3 k rowk cell hrk hci,
                hcell]
              rfl
            · rw [hcol2, tableColumn_getD_of rows refRow 2 4 k rowk cell hrk hci,
                hcell]
              rfl

/-- Witness for C5 at a concrete input. -/
theorem print_relative_efficiency_table_reference_row_witness :
    wTable.methods.getLast? = some "OpenMM/HREX"
    ∧ ∀ sys ∈ system_names, ∀ stat ∈ statistic_names,
        (tableLookup wTable.cells sys stat).getLast? = some "1.0" :=
  print_relative_efficiency_table_reference_row wSqrt wGmean wRepr wFmt 1
    [wSub4] wYank wTable (by with_unfolding_all decide)

/-- Witness for C4 (amended) at a concrete input: GROMACS/EE on OA-G3 is
not special-cased, and its entries are the computed efficiencies. -/
theorem print_relative_efficiency_table_nonspecial_witness :
    ∃ cells, claimedStatCells wSqrt wGmean wFmt wYank
        ([wSub4].get ⟨0, by norm_num⟩) "OA-G3" = some cells ∧
      ∀ j, j < 3 →
        (tableLookup wTable.cells "OA-G3" (statistic_names.getD j "")).getD 0 ""
          = cells.getD j "" :=
  print_relative_efficiency_table_nonspecial wSqrt wGmean wRepr wFmt 1
    [wSub4] wYank wTable (by with_unfolding_all decide) 0 (by norm_num)
    "OA-G3" (by simp [system_names]) (by decide)

/-- C4 counterexample: the claim as stated is false.  With the
GROMACS/EE submission (internal name 'Expanded-ensemble/MBAR') in the
submission list, the table's CB8-G3 efficiency entries are left empty by
the special case of lines 912-916 instead of holding the computed
efficiencies. -/
theorem relative_efficiency_table_claim_counterexample :
    ¬ relative_efficiency_table_claim wSqrt wGmean wRepr wFmt 1
      [wSub4] wYank := by
  intro hclaim
  obtain ⟨cells, hcells, heq⟩ := hclaim wTable (by with_unfolding_all decide)
    0 (by norm_num) "CB8-G3" (by simp [system_names])
  have hcc : claimedStatCells wSqrt wGmean wFmt wYank
      ([wSub4].get ⟨0, by norm_num⟩) "CB8-G3"
      = some ["f", "f (f)", "f (f)"] := by
    with_unfolding_all decide
  obtain rfl := (Option.some.inj (hcc.symm.trans hcells)).symm
  have h0 := heq 0 (by norm_num)
  have hcontra : ("" : String) = "f" := by
    calc ("" : String)
        = (tableLookup wTable.cells "CB8-G3" (statistic_names.getD 0 "")).getD 0 "" := by
          with_unfolding_all decide
      _ = (["f", "f (f)", "f (f)"] : List String).getD 0 "" := h0
      _ = "f" := by decide
  exact absurd hcontra (by decide)
